import Mathlib

/-!
Verification of the target-list ingestion core of `cms_upgrade`.

The definitions below are a shallow embedding of `src/app/routes/targets.py`
and `src/app/extensions.py`: dictionaries become ordered association lists,
database tables become lists of rows, exceptions become `Except`/`Option`,
and the Postgres stream becomes the list of values the cursor would deliver.
-/

/-- Python `str.strip()` on a character list: drop whitespace from both ends. -/
def pyStripChars (l : List Char) : List Char :=
  ((l.dropWhile Char.isWhitespace).reverse.dropWhile Char.isWhitespace).reverse

/-- Python `str.strip()`. -/
def pyStrip (s : String) : String :=
  ⟨pyStripChars s.data⟩

/-- Keep only decimal digit characters (Python `"".join(c for c in s if c.isdigit())`). -/
def digitsOnly (s : String) : String :=
  ⟨s.data.filter Char.isDigit⟩

/-- Python `str.lower()`, character by character. -/
def pyLower (s : String) : String :=
  ⟨s.data.map Char.toLower⟩

/-- A parsed row: a Python dict as an ordered association list (csv.DictReader
preserves the header order; dict keys are unique). -/
abbrev Rec := List (String × String)

/-- Python `row.get(k)`: value of the first matching key, `None` if absent. -/
def dictGet (r : Rec) (k : String) : Option String :=
  (r.find? (fun kv => kv.1 == k)).map (fun kv => kv.2)

/-- Embedding of `targets.py` line 73: `_extract_clean_npi(raw)` =
`"".join(ch for ch in str(raw or "").strip() if ch.isdigit())`.
`raw or ""` turns `None` (and `""`) into `""`. -/
def _extract_clean_npi (raw : Option String) : String :=
  digitsOnly (pyStrip (raw.getD ""))

/-- The cleaned identifier a row contributes for the chosen column. -/
def cleanOf (r : Rec) (col : String) : String :=
  _extract_clean_npi (dictGet r col)

/-- Embedding of `targets.py` lines 279-282: the auxiliary payload of a winning row —
all columns except the identifier column, truncated to the first 30 keys
when larger than 30. -/
def mkExtra (r : Rec) (col : String) : Rec :=
  let extra := r.filter (fun kv => kv.1 ≠ col)
  if extra.length > 30 then extra.take 30 else extra

/-- Embedding of `targets.py` line 283: `extra if extra else None` — an empty payload is
persisted as null. -/
def storedExtra (r : Rec) (col : String) : Option Rec :=
  let e := mkExtra r col
  if e = [] then none else some e

/-- One persisted `TargetListEntry` (identifier plus payload). -/
structure Entry where
  npi : String
  extra : Option Rec
deriving DecidableEq

/-- Embedding of `targets.py` lines 272-283: the dedup loop, with the `seen` set made
explicit.  Rows whose cleaned identifier is empty or already seen are
skipped; otherwise the entry is appended and the identifier recorded. -/
def buildEntriesAux (col : String) : List Rec → List String → List Entry
  | [], _ => []
  | r :: rs, seen =>
    let npi := cleanOf r col
    if npi = "" ∨ npi ∈ seen then
      buildEntriesAux col rs seen
    else
      { npi := npi, extra := storedExtra r col } :: buildEntriesAux col rs (npi :: seen)

/-- The entry list produced for an upload (`to_insert` at line 285). -/
def buildEntries (rows : List Rec) (col : String) : List Entry :=
  buildEntriesAux col rows []

-- ---------------------------------------------------------------------------
-- Identifier-column selection (`targets.py` lines 56-71)
-- ---------------------------------------------------------------------------

/-- The fixed candidate names searched at lines 61-64. -/
def candidateNames : List String := ["npi", "npi_id", "npi number", "npi_number"]

/-- Lines 67-68: score of one column — over the first 200 rows, the number of
values whose digit-stripped form has length exactly 10
(`row.get(h) or ""` turns a missing value into `""`). -/
def scoreCol (rows : List Rec) (h : String) : Nat :=
  ((rows.take 200).map (fun row => digitsOnly ((dictGet row h).getD ""))).countP
    (fun v => v.length == 10)

/-- Lines 65-70: the best/best_score accumulator loop (`best = None;
best_score = -1`; a column beats the accumulator only with a strictly
greater score, so the first column always replaces the initial `None`
and ties keep the earlier column). -/
def bestLoop (score : String → Nat) : List String → Option (String × Nat) → Option (String × Nat)
  | [], acc => acc
  | h :: t, acc =>
    match acc with
    | none => bestLoop score t (some (h, score h))
    | some (b, bs) =>
      if score h > bs then bestLoop score t (some (h, score h))
      else bestLoop score t (some (b, bs))

/-- Embedding of `targets.py` lines 56-71, `_pick_npi_column`.  `none` models the two
failure outcomes: empty input (returns `None`) and the `IndexError` of
`headers[0]` when the first row has no columns.  The final line
`return best or headers[0]` falls back to the first header when `best`
is the empty string (Python falsiness). -/
def _pick_npi_column (rows : List Rec) : Option String :=
  match rows with
  | [] => none
  | r :: _ =>
    let headers := r.map (fun kv => kv.1)
    let lower := headers.map (fun h => pyStrip (pyLower h))
    match candidateNames.find? (fun c => lower.contains c) with
    | some c => ((headers.zip lower).find? (fun p => p.2 == c)).map (fun p => p.1)
    | none =>
      match bestLoop (scoreCol rows) headers none with
      | some bp => if bp.1 = "" then headers.head? else some bp.1
      | none => headers.head?

-- ---------------------------------------------------------------------------
-- Match engine (`targets.py` lines 151-230)
-- ---------------------------------------------------------------------------

/-- Embedding of `targets.py` lines 151-153, `_env_true`. `env` is the process
environment. -/
def _env_true (env : String → Option String) (name : String) (dflt : String) : Bool :=
  pyLower ((env name).getD dflt) ∈ (["1", "true", "yes", "y", "on"] : List String)

/-- The local application database as the match engine sees it: the
`network_npis` mirror table and the `target_list_entries.npi` column of the
list being matched (distinct by the per-list uniqueness constraint). -/
structure AppDb where
  mirror : List String
  entries : List String

/-- Ambient state and fault model for one run of
`compute_network_match_count`: the environment, the module globals of
`app.extensions`, and the outcome of each fallible external step (an
`Option String` holds the rendered exception when that step raises). -/
structure MatchCtx where
  env : String → Option String
  /-- Value of `ext.network_cache_strategy` (still `None` before init). -/
  strategy : Option String
  /-- exception raised by `ensure_local_network_table`, if any -/
  ensureFault : Option String
  /-- exception raised by the cache-mode COUNT query, if any -/
  cacheQueryFault : Option String
  /-- exception raised loading the target-list NPIs, if any -/
  tlQueryFault : Option String
  /-- both `ext.ro_engine` and `ext.ro_sql_network_npi` configured -/
  roConfigured : Bool
  /-- the DISTINCT raw values the warehouse cursor would deliver -/
  streamRows : List String
  /-- exception raised while opening or draining the stream, if any -/
  streamFault : Option String

/-- Lines 193-194: `use_cache = strategy in {"startup_snapshot", "manual"}`. -/
def useCache (c : MatchCtx) : Bool :=
  c.strategy == some "startup_snapshot" || c.strategy == some "manual"

/-- The body of the `try` block at lines 192-223.  Cache mode counts the
mirror rows whose npi is among the list's entries (the SQL
`SELECT COUNT(*) ... WHERE npi IN (...)`); live mode short-circuits on an
empty list, yields an empty stream when the source is unconfigured, and
otherwise counts streamed values whose `str(npi).strip()` form is in the
in-memory entry set. -/
def computeMatchBody (db : AppDb) (c : MatchCtx) : Except String Nat :=
  if useCache c then
    match c.ensureFault with
    | some e => .error e
    | none =>
      match c.cacheQueryFault with
      | some e => .error e
      | none => .ok (db.mirror.countP (fun n => db.entries.contains n))
  else
    match c.tlQueryFault with
    | some e => .error e
    | none =>
      if db.entries.isEmpty then .ok 0
      else if !c.roConfigured then .ok 0
      else
        match c.streamFault with
        | some e => .error e
        | none => .ok ((c.streamRows.map pyStrip).countP (fun n => db.entries.contains n))

/-- Embedding of `targets.py` lines 182-230, `compute_network_match_count`.  Returns the
count together with the list of flashed warnings (the `flash` call sits in
a request context during ingest, so the warning is recorded; its own
`try/except pass` guard never fires there). -/
def compute_network_match_count (db : AppDb) (c : MatchCtx) : Nat × List String :=
  if !_env_true c.env "MATCH_NETWORK_ENABLED" "1" then (0, [])
  else
    match computeMatchBody db c with
    | .ok n => (n, [])
    | .error e => (0, ["Network match skipped: " ++ e])

-- ---------------------------------------------------------------------------
-- Ingest (`targets.py` lines 244-300, POST branch of `target_lists`)
-- ---------------------------------------------------------------------------

/-- The counts stored on the `TargetList` row when ingest commits. -/
structure IngestResult where
  n_rows : Nat
  n_unique_npi : Nat
  n_matched_network : Nat
  entries : List Entry
deriving DecidableEq

/-- Embedding of `targets.py` lines 255-296: parse rows, pick the NPI column, build the
deduplicated entries, store `n_rows`/`n_unique_npi`, and compute
`n_matched_network`; parsing failures abort with the flashed message.
Line 261 `if not npi_col:` is a Python falsiness test, so it aborts both
when `_pick_npi_column` returns `None` and when it returns the
empty-string header. -/
def targetListsPost (rows : List Rec) (mirror : List String) (c : MatchCtx) :
    Except String IngestResult :=
  if rows.isEmpty then .error "File appears empty."
  else
    match _pick_npi_column rows with
    | none => .error "Could not identify NPI column."
    | some col =>
      if col = "" then .error "Could not identify NPI column."
      else
      let entries := buildEntries rows col
      let db : AppDb := { mirror := mirror, entries := entries.map Entry.npi }
      let m := (compute_network_match_count db c).1
      .ok { n_rows := rows.length
            n_unique_npi := entries.length
            n_matched_network := m
            entries := entries }

-- ---------------------------------------------------------------------------
-- Network cache refresh (`extensions.py` lines 90-143)
-- ---------------------------------------------------------------------------

/-- Inputs of one `refresh_network_cache` run: whether the read-only source
is configured, the rows its cursor yields (`None` for SQL NULL), and the
`network_cache_limit` global. -/
structure RefreshEnv where
  roConfigured : Bool
  source : List (Option String)
  limit : Option Nat

/-- Outcome: the returned count, the final `network_npis` table, and the
process-wide observability state written at lines 141-142. -/
structure RefreshOut where
  rows_inserted : Nat
  mirror : List String
  network_cache_count : Nat
  last_at_recorded : Bool
deriving DecidableEq

/-- One batch insert with `ON CONFLICT(npi) DO NOTHING`: rows already
present (or duplicated within the batch) are silently skipped. -/
def upsertBatch (mirror : List String) (batch : List String) : List String :=
  batch.foldl (fun m s => if s ∈ m then m else m ++ [s]) mirror

/-- Line 115: `limit = network_cache_limit or float("inf")` — a stored 0 (or
`None`) means no cap. -/
def effLimit (l : Option Nat) : Option Nat :=
  match l with
  | some 0 => none
  | x => x

/-- Line 132: `rows_inserted >= limit`, checked only after a full-batch
flush. -/
def capReached (limit : Option Nat) (n : Nat) : Bool :=
  match limit with
  | none => false
  | some l => n ≥ l

/-- Embedding of `extensions.py` lines 113-139, the streaming loop.  Null/empty values are
skipped; a full batch (5000) is flushed with the upsert and counted by its
batch length; the cap is tested only after such a flush; the final partial
batch is flushed after the loop. -/
def refreshLoop (limit : Option Nat) :
    List (Option String) → List String → List String → Nat → List String × Nat
  | [], mirror, batch, ins => (upsertBatch mirror batch, ins + batch.length)
  | row :: rest, mirror, batch, ins =>
    match row with
    | none => refreshLoop limit rest mirror batch ins
    | some n =>
      if n = "" then refreshLoop limit rest mirror batch ins
      else
        let batch' := batch ++ [n]
        if batch'.length ≥ 5000 then
          let mirror' := upsertBatch mirror batch'
          let ins' := ins + batch'.length
          if capReached limit ins' then (mirror', ins')
          else refreshLoop limit rest mirror' [] ins'
        else refreshLoop limit rest mirror batch' ins

/-- Embedding of `extensions.py` lines 90-143, `refresh_network_cache`.  Raises
(`RuntimeError`, the spec's `SourceNotConfigured`) when the read-only
source is unconfigured; otherwise truncates the mirror (`DELETE FROM
network_npis`) and refills it from the stream. -/
def refresh_network_cache (e : RefreshEnv) : Except String RefreshOut :=
  if !e.roConfigured then .error "SourceNotConfigured"
  else
    let r := refreshLoop (effLimit e.limit) e.source [] [] 0
    .ok { rows_inserted := r.2
          mirror := r.1
          network_cache_count := r.2
          last_at_recorded := true }

-- ---------------------------------------------------------------------------
-- Summarizer (`targets.py` lines 103-145)
-- ---------------------------------------------------------------------------

/-- Python 3 `round` to an integer: round half to even. Cell values are IEEE
doubles in the source; they are modelled as exact rationals here. -/
def pyRound (q : ℚ) : ℤ :=
  let f := ⌊q⌋
  let frac := q - f
  if frac < 1/2 then f
  else if frac > 1/2 then f + 1
  else if f % 2 = 0 then f else f + 1

/-- Line 137: `i = max(0, min(n-1, int(round((p/100.0)*(n-1)))))`. -/
def pctIndex (n : Nat) (p : ℚ) : Nat :=
  (max 0 (min ((n : ℤ) - 1) (pyRound ((p / 100) * ((n : ℤ) - 1))))).toNat

/-- Lines 136-138: `pct(p)` — nearest-rank lookup in the sorted value list. -/
def pct (valsSorted : List ℚ) (p : ℚ) : ℚ :=
  valsSorted.getD (pctIndex valsSorted.length p) 0

/-- The per-key numeric summary built at line 139. -/
structure NumSummary where
  count : Nat
  min : ℚ
  p50 : ℚ
  p90 : ℚ
  max : ℚ
deriving DecidableEq

/-- Lines 113-124: the values gathered for one numeric key — entries with a
null or non-dict payload are skipped, the key must be present, and
`float(str(v).strip())` is modelled by the `parse` parameter (`none` when
the parse raises and the value is skipped). -/
def numericValuesFor (parse : String → Option ℚ) (nk : String)
    (extras : List (Option Rec)) : List ℚ :=
  extras.filterMap (fun ex =>
    match ex with
    | none => none
    | some r =>
      match dictGet r nk with
      | none => none
      | some v => parse v)

/-- Lines 131-139: the summary for one numeric key (`if vals:` — a key with
no parseable value yields nothing). Python `sorted(vals)` is modelled by
insertion sort, which produces the same list on a linear order. -/
def summarizeKey (parse : String → Option ℚ) (nk : String)
    (extras : List (Option Rec)) : Option NumSummary :=
  let vals := numericValuesFor parse nk extras
  if vals.isEmpty then none
  else
    let s := List.insertionSort (· ≤ ·) vals
    some { count := vals.length
           min := s.headD 0
           p50 := pct s 50
           p90 := pct s 90
           max := s.getLastD 0 }

-- ---------------------------------------------------------------------------
-- Concrete fixtures used by the verification below
-- ---------------------------------------------------------------------------

/-- A row with an identifier column plus 40 extra columns (for the C8
witness). -/
def wideRow : Rec :=
  ("npi", "1234567890") :: (List.range 40).map (fun i => (String.mk ('c' :: (toString i).data), "v"))

/-- A fault-free live-strategy context whose warehouse cursor would deliver
`network` (matching is enabled: the environment is empty). -/
def liveCtx (network : List String) : MatchCtx :=
  { env := fun _ => none, strategy := some "live", ensureFault := none,
    cacheQueryFault := none, tlQueryFault := none, roConfigured := true,
    streamRows := network, streamFault := none }

/-- A fault-free cache-strategy context (`startup_snapshot` or `manual`);
cache-mode matching reads the local mirror, not the stream. -/
def cacheCtx (strat : String) : MatchCtx :=
  { env := fun _ => none, strategy := some strat, ensureFault := none,
    cacheQueryFault := none, tlQueryFault := none, roConfigured := true,
    streamRows := [], streamFault := none }

/-- The non-null, non-empty identifier values of the source cursor, in
order — exactly the rows the loop at `extensions.py` lines 120-123 does not
skip. -/
def refreshSrcVals (source : List (Option String)) : List String :=
  (source.filterMap id).filter (fun s => !(s == ""))

/-- A digits-only numeric parser (stands in for Python `float` on integer
strings in the concrete summarizer runs). -/
def parseNatQ (v : String) : Option ℚ :=
  if v.data ≠ [] ∧ v.data.all Char.isDigit then
    some ((v.data.foldl (fun acc c => 10 * acc + (c.toNat - '0'.toNat)) 0 : Nat) : ℚ)
  else none

/-- Ten entries whose "Score" values are the strings "1" .. "10". -/
def extras10 : List (Option Rec) :=
  [some [("Score", "1")], some [("Score", "2")], some [("Score", "3")],
   some [("Score", "4")], some [("Score", "5")], some [("Score", "6")],
   some [("Score", "7")], some [("Score", "8")], some [("Score", "9")],
   some [("Score", "10")]]

-- ---------------------------------------------------------------------------
-- sanity examples (concrete evaluations of the embedding)
-- ---------------------------------------------------------------------------

example : _extract_clean_npi (some "123-456-7890") = "1234567890" := by decide

example :
    buildEntries [[("npi", "1234567890"), ("x", "a")], [("npi", "1234567890"), ("x", "b")]] "npi"
      = [{ npi := "1234567890", extra := some [("x", "a")] }] := by decide

-- ---------------------------------------------------------------------------
-- Helper lemmas: stripping and digit extraction
-- ---------------------------------------------------------------------------

lemma ws_not_digit (c : Char) (h : c.isWhitespace = true) : c.isDigit = false := by
  simp only [Char.isWhitespace, Bool.or_eq_true, decide_eq_true_eq] at h
  have h' : c = ' ' ∨ c = '\t' ∨ c = '\r' ∨ c = '\n' := by tauto
  rcases h' with h' | h' | h' | h' <;> (subst h'; decide)

lemma filter_digits_dropWhile (l : List Char) :
    (l.dropWhile Char.isWhitespace).filter Char.isDigit = l.filter Char.isDigit := by
  induction l with
  | nil => rfl
  | cons a t ih =>
    by_cases ha : a.isWhitespace = true
    · rw [List.dropWhile_cons_of_pos ha]
      simp [List.filter_cons, ws_not_digit a ha, ih]
    · rw [List.dropWhile_cons_of_neg (by simp [ha])]

lemma filter_digits_pyStripChars (l : List Char) :
    (pyStripChars l).filter Char.isDigit = l.filter Char.isDigit := by
  unfold pyStripChars
  rw [List.filter_reverse, filter_digits_dropWhile, List.filter_reverse,
    List.reverse_reverse, filter_digits_dropWhile]

lemma extract_clean_npi_eq (s : String) :
    (_extract_clean_npi (some s)).data = s.data.filter Char.isDigit := by
  show ((pyStripChars s.data).filter Char.isDigit) = s.data.filter Char.isDigit
  exact filter_digits_pyStripChars s.data

-- ---------------------------------------------------------------------------
-- Helper lemmas: the dedup loop
-- ---------------------------------------------------------------------------

lemma buildEntriesAux_cons (col : String) (r : Rec) (rs : List Rec) (seen : List String) :
    buildEntriesAux col (r :: rs) seen =
      if cleanOf r col = "" ∨ cleanOf r col ∈ seen then buildEntriesAux col rs seen
      else { npi := cleanOf r col, extra := storedExtra r col } ::
        buildEntriesAux col rs (cleanOf r col :: seen) := rfl

lemma buildAux_mem (col : String) :
    ∀ (rows : List Rec) (seen : List String) (e : Entry),
      e ∈ buildEntriesAux col rows seen → e.npi ∉ seen ∧ e.npi ≠ "" := by
  intro rows
  induction rows with
  | nil => intro seen e h; simp [buildEntriesAux] at h
  | cons r rs ih =>
    intro seen e h
    rw [buildEntriesAux_cons] at h
    by_cases hc : cleanOf r col = "" ∨ cleanOf r col ∈ seen
    · rw [if_pos hc] at h; exact ih seen e h
    · rw [if_neg hc] at h
      push_neg at hc
      rcases List.mem_cons.mp h with he | he
      · subst he; exact ⟨hc.2, hc.1⟩
      · have h2 := ih _ e he
        exact ⟨fun hs => h2.1 (List.mem_cons_of_mem _ hs), h2.2⟩

lemma buildAux_nodup (col : String) :
    ∀ (rows : List Rec) (seen : List String),
      ((buildEntriesAux col rows seen).map Entry.npi).Nodup := by
  intro rows
  induction rows with
  | nil => intro seen; simp [buildEntriesAux]
  | cons r rs ih =>
    intro seen
    rw [buildEntriesAux_cons]
    by_cases hc : cleanOf r col = "" ∨ cleanOf r col ∈ seen
    · rw [if_pos hc]; exact ih seen
    · rw [if_neg hc]
      simp only [List.map_cons, List.nodup_cons]
      refine ⟨fun hmem => ?_, ih _⟩
      rcases List.mem_map.mp hmem with ⟨e, he, hnpi⟩
      exact (buildAux_mem col rs _ e he).1 (by rw [hnpi]; exact List.mem_cons_self _ _)

lemma buildAux_length_le (col : String) :
    ∀ (rows : List Rec) (seen : List String),
      (buildEntriesAux col rows seen).length ≤ rows.length := by
  intro rows
  induction rows with
  | nil => intro seen; simp [buildEntriesAux]
  | cons r rs ih =>
    intro seen
    rw [buildEntriesAux_cons]
    by_cases hc : cleanOf r col = "" ∨ cleanOf r col ∈ seen
    · rw [if_pos hc]
      exact le_trans (ih seen) (by simp)
    · rw [if_neg hc]
      simpa using Nat.succ_le_succ (ih (cleanOf r col :: seen))

lemma buildAux_find (col id : String) (hid : id ≠ "") :
    ∀ (rows : List Rec) (seen : List String),
      (id ∈ seen → (buildEntriesAux col rows seen).find? (fun e => e.npi == id) = none) ∧
      (id ∉ seen →
        (buildEntriesAux col rows seen).find? (fun e => e.npi == id)
          = (rows.find? (fun r => cleanOf r col == id)).map
              (fun r => { npi := id, extra := storedExtra r col })) := by
  intro rows
  induction rows with
  | nil => intro seen; exact ⟨fun _ => rfl, fun _ => rfl⟩
  | cons r rs ih =>
    intro seen
    rw [buildEntriesAux_cons]
    by_cases hc : cleanOf r col = "" ∨ cleanOf r col ∈ seen
    · rw [if_pos hc]
      refine ⟨fun hin => (ih seen).1 hin, fun hnin => ?_⟩
      have hcne : (cleanOf r col == id) = false := by
        simp only [beq_eq_false_iff_ne, ne_eq]
        intro heq
        rcases hc with hc | hc
        · exact hid (heq ▸ hc)
        · exact hnin (heq ▸ hc)
      simp only [List.find?_cons, hcne]
      exact (ih seen).2 hnin
    · rw [if_neg hc]
      push_neg at hc
      constructor
      · intro hin
        have hne : (({ npi := cleanOf r col, extra := storedExtra r col } : Entry).npi == id)
            = false := by
          simp only [beq_eq_false_iff_ne, ne_eq]
          intro heq
          exact hc.2 (by rw [heq]; exact hin)
        simp only [List.find?_cons, hne]
        exact (ih _).1 (List.mem_cons_of_mem _ hin)
      · intro hnin
        by_cases hcid : cleanOf r col = id
        · have h1 : (({ npi := cleanOf r col, extra := storedExtra r col } : Entry).npi == id)
              = true := by simp [hcid]
          have h2 : (cleanOf r col == id) = true := by simp [hcid]
          simp only [List.find?_cons, h1, h2, Option.map_some']
          simp [hcid]
        · have h1 : (({ npi := cleanOf r col, extra := storedExtra r col } : Entry).npi == id)
              = false := by simp [hcid]
          have h2 : (cleanOf r col == id) = false := by simp [hcid]
          simp only [List.find?_cons, h1, h2]
          apply (ih _).2
          intro hmm
          rcases List.mem_cons.mp hmm with h3 | h3
          · exact hcid h3.symm
          · exact hnin h3

lemma nodup_filter_npi_le_one (id : String) :
    ∀ (l : List Entry), ((l.map Entry.npi).Nodup) →
      (l.filter (fun e => e.npi == id)).length ≤ 1 := by
  intro l
  induction l with
  | nil => simp
  | cons a t ih =>
    intro h
    simp only [List.map_cons, List.nodup_cons] at h
    by_cases ha : (a.npi == id) = true
    · have ht : t.filter (fun e : Entry => e.npi == id) = [] := by
        rw [List.filter_eq_nil_iff]
        intro e he hbe
        apply h.1
        rw [List.mem_map]
        refine ⟨e, he, ?_⟩
        simp only [beq_iff_eq] at ha hbe
        rw [hbe, ← ha]
      simp only [List.filter_cons, ha, if_true, ht]
      simp
    · have ha' : (a.npi == id) = false := by
        cases hv : (a.npi == id) with
        | true => exact absurd hv ha
        | false => rfl
      simp only [List.filter_cons, ha', if_false]
      exact ih h.2

lemma buildAux_append_skip (col : String) (r : Rec) (hr : cleanOf r col = "") :
    ∀ (rows : List Rec) (seen : List String),
      buildEntriesAux col (rows ++ [r]) seen = buildEntriesAux col rows seen := by
  intro rows
  induction rows with
  | nil =>
    intro seen
    show buildEntriesAux col [r] seen = buildEntriesAux col [] seen
    rw [buildEntriesAux_cons, if_pos (Or.inl hr)]
  | cons q qs ih =>
    intro seen
    rw [List.cons_append, buildEntriesAux_cons, buildEntriesAux_cons]
    by_cases hc : cleanOf q col = "" ∨ cleanOf q col ∈ seen
    · rw [if_pos hc, if_pos hc, ih]
    · rw [if_neg hc, if_neg hc, ih]

-- ---------------------------------------------------------------------------
-- Claim C3 — deduplication is first-occurrence-wins
-- ---------------------------------------------------------------------------

/-- C3: iterating parsed records in source order, the first record that
yields a given canonical identifier determines the stored entry's payload
(the `find?` equation: the entry stored for `id` comes from the first row
whose cleaned value is `id`), and every later record with that identifier
is dropped entirely (at most one entry per identifier survives). -/
theorem C3_dedup_first_occurrence_wins (rows : List Rec) (col id : String) (hid : id ≠ "") :
    ((buildEntries rows col).filter (fun e => e.npi == id)).length ≤ 1 ∧
    (buildEntries rows col).find? (fun e => e.npi == id)
      = (rows.find? (fun r => cleanOf r col == id)).map
          (fun r => { npi := id, extra := storedExtra r col }) := by
  constructor
  · exact nodup_filter_npi_le_one id _ (buildAux_nodup col rows [])
  · exact (buildAux_find col id hid rows []).2 (by simp)

/-- Witness for C3: the spec's own example — two rows with the same npi and
payloads `x:"a"` and `x:"b"`; the stored entry carries `x:"a"`. -/
theorem C3_dedup_first_occurrence_wins_witness :
    (("1234567890" : String) ≠ "") ∧
    (((buildEntries [[("npi", "1234567890"), ("x", "a")], [("npi", "1234567890"), ("x", "b")]]
          "npi").filter (fun e => e.npi == "1234567890")).length ≤ 1 ∧
      (buildEntries [[("npi", "1234567890"), ("x", "a")], [("npi", "1234567890"), ("x", "b")]]
            "npi").find? (fun e => e.npi == "1234567890")
        = (([[("npi", "1234567890"), ("x", "a")], [("npi", "1234567890"), ("x", "b")]] :
              List Rec).find? (fun r => cleanOf r "npi" == "1234567890")).map
            (fun r => { npi := "1234567890", extra := storedExtra r "npi" })) :=
  ⟨by decide, C3_dedup_first_occurrence_wins _ "npi" "1234567890" (by decide)⟩

-- ---------------------------------------------------------------------------
-- Claim C7 — identifier normalization and absent identifiers
-- ---------------------------------------------------------------------------

/-- C7: normalization keeps exactly the decimal digits of the raw cell, in
order (so `"123-456-7890"` becomes `"1234567890"` and an all-letters cell
becomes empty); a row whose value normalizes to the empty string produces
no entry (the entry set is unchanged) while still counting toward the raw
row count. -/
theorem C7_normalization_strips_non_digits :
    (∀ s : String, (_extract_clean_npi (some s)).data = s.data.filter Char.isDigit) ∧
    _extract_clean_npi (some "123-456-7890") = "1234567890" ∧
    _extract_clean_npi (some "abcdef") = "" ∧
    (∀ (rows : List Rec) (col : String) (r : Rec),
      cleanOf r col = "" →
      buildEntries (rows ++ [r]) col = buildEntries rows col ∧
      (rows ++ [r]).length = rows.length + 1) := by
  refine ⟨extract_clean_npi_eq, by decide, by decide, ?_⟩
  intro rows col r hr
  exact ⟨buildAux_append_skip col r hr rows [], by simp⟩

/-- Witness for C7: a trailing all-letters row adds a raw row but no entry. -/
theorem C7_normalization_strips_non_digits_witness :
    (_extract_clean_npi (some "123-456-7890")).data = "123-456-7890".data.filter Char.isDigit ∧
    cleanOf [("npi", "abc")] "npi" = "" ∧
    (buildEntries [[("npi", "1234567890")], [("npi", "abc")]] "npi"
        = buildEntries [[("npi", "1234567890")]] "npi" ∧
      ([[("npi", "1234567890")]] ++ [[("npi", "abc")]] : List Rec).length
        = [[("npi", "1234567890")]].length + 1) :=
  ⟨C7_normalization_strips_non_digits.1 "123-456-7890", by decide,
    C7_normalization_strips_non_digits.2.2.2 [[("npi", "1234567890")]] "npi" [("npi", "abc")]
      (by decide)⟩

-- ---------------------------------------------------------------------------
-- Claim C8 — auxiliary payload shape and 30-key cap
-- ---------------------------------------------------------------------------

/-- C8: the payload of a winning record is exactly its columns minus the
identifier column taken verbatim; when that map exceeds 30 entries it is
truncated to the first 30 keys in source column order (so 40 extra columns
persist as exactly 30 keys), and a non-empty payload is persisted as-is. -/
theorem C8_payload_cap (r : Rec) (col : String) :
    ((r.filter (fun kv => kv.1 ≠ col)).length ≤ 30 →
        mkExtra r col = r.filter (fun kv => kv.1 ≠ col)) ∧
    ((r.filter (fun kv => kv.1 ≠ col)).length > 30 →
        mkExtra r col = (r.filter (fun kv => kv.1 ≠ col)).take 30 ∧
        (mkExtra r col).length = 30) ∧
    (r.filter (fun kv => kv.1 ≠ col) ≠ [] → storedExtra r col = some (mkExtra r col)) := by
  refine ⟨fun hle => ?_, fun hgt => ?_, fun hne => ?_⟩
  · simp only [mkExtra]
    rw [if_neg (by omega)]
  · have h1 : mkExtra r col = (r.filter (fun kv => kv.1 ≠ col)).take 30 := by
      simp only [mkExtra]
      rw [if_pos hgt]
    refine ⟨h1, ?_⟩
    rw [h1, List.length_take]
    omega
  · have hm : mkExtra r col ≠ [] := by
      simp only [mkExtra]
      by_cases hgt : (r.filter (fun kv => kv.1 ≠ col)).length > 30
      · rw [if_pos hgt]
        intro hnil
        have h0 : ((r.filter (fun kv => kv.1 ≠ col)).take 30).length = 0 := by
          rw [hnil]; rfl
        rw [List.length_take] at h0
        omega
      · rw [if_neg hgt]; exact hne
    simp only [storedExtra]
    rw [if_neg hm]

/-- Witness for C8: the wide row's payload keeps exactly the first 30 of its
40 extra columns. -/
theorem C8_payload_cap_witness :
    (wideRow.filter (fun kv => kv.1 ≠ "npi")).length > 30 ∧
    (mkExtra wideRow "npi" = (wideRow.filter (fun kv => kv.1 ≠ "npi")).take 30 ∧
      (mkExtra wideRow "npi").length = 30) :=
  ⟨by decide, (C8_payload_cap wideRow "npi").2.1 (by decide)⟩

-- ---------------------------------------------------------------------------
-- Claim C1 — match failures degrade to zero instead of raising
-- ---------------------------------------------------------------------------

/-- C1: `compute_network_match_count` never raises — when the overlap
computation fails (modelled as `computeMatchBody` producing an error) and
matching is enabled, the function returns 0 and flashes a warning, and an
ingest that reaches the match step (non-empty rows and a truthy picked
column, so parsing did not abort first) still completes, storing
`n_matched_network = 0`. -/
theorem C1_match_error_degrades_to_zero (rows : List Rec) (mirror : List String)
    (c : MatchCtx) (col err : String)
    (hrows : rows.isEmpty = false)
    (hcol : _pick_npi_column rows = some col)
    (hcolne : col ≠ "")
    (henv : _env_true c.env "MATCH_NETWORK_ENABLED" "1" = true)
    (herr : computeMatchBody
        { mirror := mirror, entries := (buildEntries rows col).map Entry.npi } c
      = .error err) :
    compute_network_match_count
        { mirror := mirror, entries := (buildEntries rows col).map Entry.npi } c
      = (0, ["Network match skipped: " ++ err]) ∧
    targetListsPost rows mirror c
      = .ok { n_rows := rows.length
              n_unique_npi := (buildEntries rows col).length
              n_matched_network := 0
              entries := buildEntries rows col } := by
  have hcompute : compute_network_match_count
      { mirror := mirror, entries := (buildEntries rows col).map Entry.npi } c
      = (0, ["Network match skipped: " ++ err]) := by
    unfold compute_network_match_count
    rw [henv, herr]
    rfl
  refine ⟨hcompute, ?_⟩
  unfold targetListsPost
  rw [hrows, hcol]
  simp [hcolne, hcompute]

/-- Witness for C1: a cache-mode run whose `ensure_local_network_table`
raises; the upload still stores `n_matched_network = 0`. -/
theorem C1_match_error_degrades_to_zero_witness :
    ([[("npi", "1234567890")]] : List Rec).isEmpty = false ∧
    _pick_npi_column [[("npi", "1234567890")]] = some "npi" ∧
    ("npi" : String) ≠ "" ∧
    computeMatchBody
        { mirror := ["1234567890"],
          entries := (buildEntries [[("npi", "1234567890")]] "npi").map Entry.npi }
        { env := fun _ => none, strategy := some "manual",
          ensureFault := some "OperationalError", cacheQueryFault := none,
          tlQueryFault := none, roConfigured := true, streamRows := [], streamFault := none }
      = .error "OperationalError" ∧
    (compute_network_match_count
        { mirror := ["1234567890"],
          entries := (buildEntries [[("npi", "1234567890")]] "npi").map Entry.npi }
        { env := fun _ => none, strategy := some "manual",
          ensureFault := some "OperationalError", cacheQueryFault := none,
          tlQueryFault := none, roConfigured := true, streamRows := [], streamFault := none }
      = (0, ["Network match skipped: " ++ "OperationalError"]) ∧
    targetListsPost [[("npi", "1234567890")]] ["1234567890"]
        { env := fun _ => none, strategy := some "manual",
          ensureFault := some "OperationalError", cacheQueryFault := none,
          tlQueryFault := none, roConfigured := true, streamRows := [], streamFault := none }
      = .ok { n_rows := 1
              n_unique_npi := (buildEntries [[("npi", "1234567890")]] "npi").length
              n_matched_network := 0
              entries := buildEntries [[("npi", "1234567890")]] "npi" }) :=
  ⟨rfl, by decide, by decide, rfl,
    C1_match_error_degrades_to_zero [[("npi", "1234567890")]] ["1234567890"] _ "npi"
      "OperationalError" rfl (by decide) (by decide) rfl rfl⟩

-- ---------------------------------------------------------------------------
-- Claim C10 — the MATCH_NETWORK_ENABLED kill switch
-- ---------------------------------------------------------------------------

/-- C10: when `MATCH_NETWORK_ENABLED` is set to any value whose lowercase
form is outside the truthy set, `compute_network_match_count` returns 0
(and flashes nothing) for every database state and context. -/
theorem C10_kill_switch_forces_zero (db : AppDb) (c : MatchCtx) (v : String)
    (hv : c.env "MATCH_NETWORK_ENABLED" = some v)
    (hout : pyLower v ∉ (["1", "true", "yes", "y", "on"] : List String)) :
    compute_network_match_count db c = (0, []) := by
  have henv : _env_true c.env "MATCH_NETWORK_ENABLED" "1" = false := by
    unfold _env_true
    rw [hv]
    exact decide_eq_false hout
  unfold compute_network_match_count
  rw [henv]
  rfl

/-- Witness for C10: `MATCH_NETWORK_ENABLED=off` yields 0 even though the
mirror and the list share an identifier under the cache strategy. -/
theorem C10_kill_switch_forces_zero_witness :
    (fun n => if n = "MATCH_NETWORK_ENABLED" then some "off" else none)
        "MATCH_NETWORK_ENABLED" = some "off" ∧
    pyLower "off" ∉ (["1", "true", "yes", "y", "on"] : List String) ∧
    compute_network_match_count { mirror := ["1234567890"], entries := ["1234567890"] }
        { env := fun n => if n = "MATCH_NETWORK_ENABLED" then some "off" else none,
          strategy := some "manual", ensureFault := none, cacheQueryFault := none,
          tlQueryFault := none, roConfigured := true, streamRows := [], streamFault := none }
      = (0, []) :=
  ⟨rfl, by decide,
    C10_kill_switch_forces_zero _ _ "off" rfl (by decide)⟩

-- ---------------------------------------------------------------------------
-- Helper lemmas: bounding the match count
-- ---------------------------------------------------------------------------

lemma contains_countP_le (l tl : List String) (h : l.Nodup) :
    l.countP (fun s => tl.contains s) ≤ tl.length := by
  rw [List.countP_eq_length_filter]
  have hn : (l.filter (fun s => tl.contains s)).Nodup := h.filter _
  have hs : (l.filter (fun s => tl.contains s)) ⊆ tl := by
    intro x hx
    exact List.elem_iff.mp (List.mem_filter.mp hx).2
  exact (List.subperm_of_subset hn hs).length_le

lemma computeMatchBody_le (db : AppDb) (c : MatchCtx) (hm : db.mirror.Nodup)
    (hs : (c.streamRows.map pyStrip).Nodup) (n : Nat)
    (hok : computeMatchBody db c = .ok n) : n ≤ db.entries.length := by
  unfold computeMatchBody at hok
  by_cases huc : useCache c = true
  · rw [if_pos huc] at hok
    cases hce : c.ensureFault with
    | some e => rw [hce] at hok; simp at hok
    | none =>
      rw [hce] at hok
      cases hcq : c.cacheQueryFault with
      | some e => rw [hcq] at hok; simp at hok
      | none =>
        rw [hcq] at hok
        simp only [Except.ok.injEq] at hok
        rw [← hok]
        exact contains_countP_le db.mirror db.entries hm
  · rw [if_neg huc] at hok
    cases htl : c.tlQueryFault with
    | some e => rw [htl] at hok; simp at hok
    | none =>
      rw [htl] at hok
      by_cases hemp : db.entries.isEmpty = true
      · rw [if_pos hemp] at hok
        simp only [Except.ok.injEq] at hok
        omega
      · rw [if_neg hemp] at hok
        by_cases hro : c.roConfigured = true
        · rw [if_neg (by simp [hro])] at hok
          cases hsf : c.streamFault with
          | some e => rw [hsf] at hok; simp at hok
          | none =>
            rw [hsf] at hok
            simp only [Except.ok.injEq] at hok
            rw [← hok]
            exact contains_countP_le _ db.entries hs
        · rw [if_pos (by simp [Bool.not_eq_true] at hro; simp [hro])] at hok
          simp only [Except.ok.injEq] at hok
          omega

lemma compute_match_le_entries (db : AppDb) (c : MatchCtx) (hm : db.mirror.Nodup)
    (hs : (c.streamRows.map pyStrip).Nodup) :
    (compute_network_match_count db c).1 ≤ db.entries.length := by
  unfold compute_network_match_count
  cases he : _env_true c.env "MATCH_NETWORK_ENABLED" "1" with
  | false => simp
  | true =>
    simp only [Bool.not_true, Bool.false_eq_true, if_false]
    cases hb : computeMatchBody db c with
    | ok n => simpa using computeMatchBody_le db c hm hs n hb
    | error e => simp

-- ---------------------------------------------------------------------------
-- Claim C2 — count invariants after ingest (corrected)
-- ---------------------------------------------------------------------------

/-- C2 counterexample: in live mode the stream is DISTINCT only on raw
values, while membership is tested after `str(npi).strip()`; two raw
values differing only in trailing whitespace both hit the single list
identifier, so the stored counts violate
`n_matched_network ≤ n_unique_npi`. -/
theorem C2_live_overcount_cex :
    targetListsPost [[("npi", "1111111111")]] []
        (liveCtx ["1111111111", "1111111111 "])
      = .ok { n_rows := 1, n_unique_npi := 1, n_matched_network := 2,
              entries := [{ npi := "1111111111", extra := none }] } ∧
    ¬ ((2 : Nat) ≤ 1) := by
  exact ⟨rfl, by omega⟩

/-- C2 as amended: after a successful ingest, `n_unique_npi ≤ n_rows` always
holds, and `n_matched_network ≤ n_unique_npi` holds provided the mirror is
duplicate-free (its primary key guarantees this) and the whitespace-stripped
streamed identifiers are pairwise distinct — without the latter, live mode
can overcount (see the counterexample). -/
theorem C2_count_invariants_amended (rows : List Rec) (mirror : List String)
    (c : MatchCtx) (res : IngestResult)
    (hok : targetListsPost rows mirror c = .ok res)
    (hm : mirror.Nodup) (hs : (c.streamRows.map pyStrip).Nodup) :
    res.n_unique_npi ≤ res.n_rows ∧ res.n_matched_network ≤ res.n_unique_npi := by
  unfold targetListsPost at hok
  by_cases hre : rows.isEmpty = true
  · rw [if_pos hre] at hok; simp at hok
  · rw [if_neg hre] at hok
    cases hpick : _pick_npi_column rows with
    | none => rw [hpick] at hok; simp at hok
    | some col =>
      rw [hpick] at hok
      by_cases hcol : col = ""
      · rw [hcol] at hok
        simp at hok
      · simp only [hcol, if_false, Except.ok.injEq] at hok
        rw [← hok]
        constructor
        · exact buildAux_length_le col rows []
        · have hle := compute_match_le_entries
            { mirror := mirror, entries := (buildEntries rows col).map Entry.npi } c hm hs
          simpa using hle

/-- Witness for C2 (amended): a clean live-mode ingest where both
invariants hold. -/
theorem C2_count_invariants_amended_witness :
    targetListsPost [[("npi", "1111111111")], [("npi", "2222222222")]] []
        (liveCtx ["1111111111"])
      = .ok { n_rows := 2, n_unique_npi := 2, n_matched_network := 1,
              entries := [{ npi := "1111111111", extra := none },
                          { npi := "2222222222", extra := none }] } ∧
    ([] : List String).Nodup ∧
    (((liveCtx ["1111111111"]).streamRows.map pyStrip).Nodup) ∧
    (({ n_rows := 2, n_unique_npi := 2, n_matched_network := 1,
        entries := [{ npi := "1111111111", extra := none },
                    { npi := "2222222222", extra := none }] } : IngestResult).n_unique_npi
        ≤ ({ n_rows := 2, n_unique_npi := 2, n_matched_network := 1,
             entries := [{ npi := "1111111111", extra := none },
                         { npi := "2222222222", extra := none }] } : IngestResult).n_rows ∧
      ({ n_rows := 2, n_unique_npi := 2, n_matched_network := 1,
         entries := [{ npi := "1111111111", extra := none },
                     { npi := "2222222222", extra := none }] } : IngestResult).n_matched_network
        ≤ ({ n_rows := 2, n_unique_npi := 2, n_matched_network := 1,
             entries := [{ npi := "1111111111", extra := none },
                         { npi := "2222222222", extra := none }] } : IngestResult).n_unique_npi) :=
  ⟨rfl, List.nodup_nil, by decide,
    C2_count_invariants_amended [[("npi", "1111111111")], [("npi", "2222222222")]] []
      (liveCtx ["1111111111"])
      { n_rows := 2, n_unique_npi := 2, n_matched_network := 1,
        entries := [{ npi := "1111111111", extra := none },
                    { npi := "2222222222", extra := none }] }
      rfl List.nodup_nil (by decide)⟩

-- ---------------------------------------------------------------------------
-- Claim C5 — cache-mode match vs live-mode match (corrected)
-- ---------------------------------------------------------------------------

/-- C5 counterexample: for the network identifier set containing only
`"1111111111 "` (trailing blank) and the list `{"1111111111"}`, cache mode
compares the mirrored value verbatim and finds 0, while live mode strips
the streamed value and finds 1 — the two modes disagree on the same
underlying set. -/
theorem C5_cache_live_diverge_cex :
    (compute_network_match_count { mirror := ["1111111111 "], entries := ["1111111111"] }
        (cacheCtx "manual")).1 = 0 ∧
    (compute_network_match_count { mirror := [], entries := ["1111111111"] }
        (liveCtx ["1111111111 "])).1 = 1 ∧
    (0 : Nat) ≠ 1 :=
  ⟨rfl, rfl, by omega⟩

/-- C5 as amended: when every identifier in the network set is fixed by
`strip` (no surrounding whitespace), cache-mode matching (strategy
`startup_snapshot` or `manual`, mirror holding the set) and live-mode
matching (streaming the same set) agree; otherwise they can diverge,
because live mode strips streamed values while the mirror is compared
verbatim. -/
theorem C5_cache_live_agree_amended (network tl : List String) (strat : String)
    (hstrat : strat = "startup_snapshot" ∨ strat = "manual")
    (hcanon : ∀ s ∈ network, pyStrip s = s) :
    (compute_network_match_count { mirror := network, entries := tl } (cacheCtx strat)).1
      = (compute_network_match_count { mirror := [], entries := tl } (liveCtx network)).1 := by
  have hmap : network.map pyStrip = network := by
    have h1 : network.map pyStrip = network.map (fun s => s) := List.map_congr_left hcanon
    simpa using h1
  by_cases htl : tl = []
  · subst htl
    have h0c : (compute_network_match_count { mirror := network, entries := [] }
        (cacheCtx strat)).1 = network.countP (fun s => ([] : List String).contains s) := by
      rcases hstrat with h | h <;> (subst h; rfl)
    have h0l : (compute_network_match_count { mirror := [], entries := [] }
        (liveCtx network)).1 = 0 := rfl
    rw [h0c, h0l]
    exact List.countP_eq_zero.mpr (by intro a _; simp [List.contains])
  · have hc : (compute_network_match_count { mirror := network, entries := tl }
        (cacheCtx strat)).1 = network.countP (fun s => tl.contains s) := by
      rcases hstrat with h | h <;> (subst h; rfl)
    have hl : (compute_network_match_count { mirror := [], entries := tl }
        (liveCtx network)).1 = (network.map pyStrip).countP (fun s => tl.contains s) := by
      cases tl with
      | nil => exact absurd rfl htl
      | cons a t => rfl
    rw [hc, hl, hmap]

/-- Witness for C5 (amended): the spec's example — list
`{"1111111111","2222222222"}`, network `{"1111111111"}` — agrees across
modes. -/
theorem C5_cache_live_agree_amended_witness :
    ("manual" = "startup_snapshot" ∨ "manual" = "manual") ∧
    (∀ s ∈ (["1111111111"] : List String), pyStrip s = s) ∧
    (compute_network_match_count
        { mirror := ["1111111111"], entries := ["1111111111", "2222222222"] }
        (cacheCtx "manual")).1
      = (compute_network_match_count
        { mirror := [], entries := ["1111111111", "2222222222"] }
        (liveCtx ["1111111111"])).1 :=
  ⟨Or.inr rfl, by decide,
    C5_cache_live_agree_amended ["1111111111"] ["1111111111", "2222222222"] "manual"
      (Or.inr rfl) (by decide)⟩

-- ---------------------------------------------------------------------------
-- Helper lemmas: the refresh loop
-- ---------------------------------------------------------------------------

lemma refreshLoop_cons_none (limit : Option Nat) (rest : List (Option String))
    (mirror batch : List String) (ins : Nat) :
    refreshLoop limit (none :: rest) mirror batch ins
      = refreshLoop limit rest mirror batch ins := rfl

lemma refreshLoop_cons_some (limit : Option Nat) (n : String) (rest : List (Option String))
    (mirror batch : List String) (ins : Nat) :
    refreshLoop limit (some n :: rest) mirror batch ins =
      if n = "" then refreshLoop limit rest mirror batch ins
      else if (batch ++ [n]).length ≥ 5000 then
        (if capReached limit (ins + (batch ++ [n]).length) = true
          then (upsertBatch mirror (batch ++ [n]), ins + (batch ++ [n]).length)
          else refreshLoop limit rest (upsertBatch mirror (batch ++ [n])) []
            (ins + (batch ++ [n]).length))
      else refreshLoop limit rest mirror (batch ++ [n]) ins := rfl

lemma refreshSrcVals_cons_none (rest : List (Option String)) :
    refreshSrcVals (none :: rest) = refreshSrcVals rest := rfl

lemma refreshSrcVals_cons_some (n : String) (rest : List (Option String)) :
    refreshSrcVals (some n :: rest)
      = if n = "" then refreshSrcVals rest else n :: refreshSrcVals rest := by
  by_cases hn : n = ""
  · subst hn
    simp [refreshSrcVals, List.filterMap_cons, List.filter_cons, id]
  · rw [if_neg hn]
    simp [refreshSrcVals, List.filterMap_cons, List.filter_cons, id, hn]

lemma upsertBatch_append (m b c : List String) :
    upsertBatch (upsertBatch m b) c = upsertBatch m (b ++ c) := by
  simp [upsertBatch, List.foldl_append]

lemma upsertBatch_nodup : ∀ (b m : List String), m.Nodup → (upsertBatch m b).Nodup := by
  intro b
  induction b with
  | nil => intro m h; exact h
  | cons s t ih =>
    intro m h
    show (upsertBatch (if s ∈ m then m else m ++ [s]) t).Nodup
    apply ih
    by_cases hs : s ∈ m
    · rw [if_pos hs]; exact h
    · rw [if_neg hs]
      simp [List.nodup_append, h, hs]

lemma upsertBatch_length_le :
    ∀ (b m : List String), (upsertBatch m b).length ≤ m.length + b.length := by
  intro b
  induction b with
  | nil => intro m; simp [upsertBatch]
  | cons s t ih =>
    intro m
    show (upsertBatch (if s ∈ m then m else m ++ [s]) t).length ≤ m.length + (s :: t).length
    by_cases hs : s ∈ m
    · rw [if_pos hs]
      exact le_trans (ih m) (by simp)
    · rw [if_neg hs]
      have h2 := ih (m ++ [s])
      simp only [List.length_append, List.length_cons, List.length_nil] at h2 ⊢
      omega

lemma refreshLoop_no_cap :
    ∀ (src : List (Option String)) (mirror batch : List String) (ins : Nat),
      refreshLoop none src mirror batch ins
        = (upsertBatch mirror (batch ++ refreshSrcVals src),
            ins + batch.length + (refreshSrcVals src).length) := by
  intro src
  induction src with
  | nil =>
    intro mirror batch ins
    simp [refreshLoop, refreshSrcVals]
  | cons row rest ih =>
    intro mirror batch ins
    cases row with
    | none => rw [refreshLoop_cons_none, refreshSrcVals_cons_none, ih]
    | some n =>
      by_cases hn : n = ""
      · have hvals : refreshSrcVals (some n :: rest) = refreshSrcVals rest := by
          rw [refreshSrcVals_cons_some, if_pos hn]
        rw [refreshLoop_cons_some, if_pos hn, hvals, ih]
      · have hvals : refreshSrcVals (some n :: rest) = n :: refreshSrcVals rest := by
          rw [refreshSrcVals_cons_some, if_neg hn]
        rw [refreshLoop_cons_some, if_neg hn, hvals]
        by_cases hb : (batch ++ [n]).length ≥ 5000
        · rw [if_pos hb, if_neg (by simp [capReached]), ih, upsertBatch_append]
          simp only [List.nil_append, List.append_assoc, List.cons_append]
          congr 1
          simp only [List.length_append, List.length_cons, List.length_nil]
          omega
        · rw [if_neg hb, ih]
          simp only [List.append_assoc, List.cons_append, List.nil_append]
          congr 1
          simp only [List.length_append, List.length_cons, List.length_nil]
          omega

lemma refreshLoop_small_source :
    ∀ (src : List (Option String)) (limit : Option Nat) (mirror batch : List String) (ins : Nat),
      batch.length + (refreshSrcVals src).length < 5000 →
      refreshLoop limit src mirror batch ins
        = (upsertBatch mirror (batch ++ refreshSrcVals src),
            ins + batch.length + (refreshSrcVals src).length) := by
  intro src
  induction src with
  | nil =>
    intro limit mirror batch ins _
    simp [refreshLoop, refreshSrcVals]
  | cons row rest ih =>
    intro limit mirror batch ins hsmall
    cases row with
    | none =>
      rw [refreshSrcVals_cons_none] at hsmall
      rw [refreshLoop_cons_none, refreshSrcVals_cons_none, ih limit mirror batch ins hsmall]
    | some n =>
      by_cases hn : n = ""
      · have hvals : refreshSrcVals (some n :: rest) = refreshSrcVals rest := by
          rw [refreshSrcVals_cons_some, if_pos hn]
        rw [hvals] at hsmall
        rw [refreshLoop_cons_some, if_pos hn, hvals, ih limit mirror batch ins hsmall]
      · have hvals : refreshSrcVals (some n :: rest) = n :: refreshSrcVals rest := by
          rw [refreshSrcVals_cons_some, if_neg hn]
        rw [hvals] at hsmall
        simp only [List.length_cons] at hsmall
        have hb : ¬ ((batch ++ [n]).length ≥ 5000) := by
          simp only [List.length_append, List.length_cons, List.length_nil]
          omega
        rw [refreshLoop_cons_some, if_neg hn, if_neg hb, hvals]
        have hrec := ih limit mirror (batch ++ [n]) ins
          (by simp only [List.length_append, List.length_cons, List.length_nil]; omega)
        rw [hrec]
        simp only [List.append_assoc, List.cons_append, List.nil_append]
        congr 1
        simp only [List.length_append, List.length_cons, List.length_nil]
        omega

-- ---------------------------------------------------------------------------
-- Claim C4 — refresh_network_cache (corrected)
-- ---------------------------------------------------------------------------

/-- C4 counterexample: `rows_inserted` counts batch rows submitted to the
upsert, not rows actually inserted — a duplicated source identifier is
silently skipped by `ON CONFLICT DO NOTHING` yet still counted, so the
return (2) exceeds the mirror size (1); and with a cap of 1 and two rows
the cap is never consulted (it is only checked after full 5000-row
batches), so the function returns 2 instead of stopping at 1. -/
theorem C4_refresh_count_cex :
    refresh_network_cache { roConfigured := true, source := [some "1", some "1"], limit := none }
      = .ok { rows_inserted := 2, mirror := ["1"], network_cache_count := 2,
              last_at_recorded := true } ∧
    (["1"] : List String).length = 1 ∧ (2 : Nat) ≠ 1 ∧
    refresh_network_cache { roConfigured := true, source := [some "1", some "2"], limit := some 1 }
      = .ok { rows_inserted := 2, mirror := ["1", "2"], network_cache_count := 2,
              last_at_recorded := true } ∧
    (1 : Nat) < 2 :=
  ⟨rfl, rfl, by omega, rfl, by omega⟩

/-- C4 as amended: `refresh_network_cache` fails with `SourceNotConfigured`
when no read-only connection/query is configured; otherwise it returns the
number of non-empty source rows submitted to the upsert (duplicates
included, so the mirror, which is duplicate-free, can be smaller) and
records that count in process-wide state with a refresh timestamp; the
row cap is consulted only after full 5000-row batch flushes, so for a
source smaller than one batch the returned count ignores the cap
entirely. -/
theorem C4_refresh_amended :
    (∀ e : RefreshEnv, e.roConfigured = false →
      refresh_network_cache e = .error "SourceNotConfigured") ∧
    (∀ (e : RefreshEnv) (r : RefreshOut), e.roConfigured = true → effLimit e.limit = none →
      refresh_network_cache e = .ok r →
      r.rows_inserted = (refreshSrcVals e.source).length ∧
      r.mirror = upsertBatch [] (refreshSrcVals e.source) ∧
      r.mirror.Nodup ∧ r.mirror.length ≤ r.rows_inserted ∧
      r.network_cache_count = r.rows_inserted ∧ r.last_at_recorded = true) ∧
    (∀ (e : RefreshEnv) (r : RefreshOut), e.roConfigured = true →
      (refreshSrcVals e.source).length < 5000 →
      refresh_network_cache e = .ok r →
      r.rows_inserted = (refreshSrcVals e.source).length) := by
  refine ⟨fun e h => ?_, fun e r hconf hlim hok => ?_, fun e r hconf hsmall hok => ?_⟩
  · unfold refresh_network_cache
    rw [h]
    rfl
  · unfold refresh_network_cache at hok
    rw [hconf] at hok
    simp only [Bool.not_true, Bool.false_eq_true, if_false, Except.ok.injEq] at hok
    rw [hlim, refreshLoop_no_cap] at hok
    have hr : r = { rows_inserted := (refreshSrcVals e.source).length,
                    mirror := upsertBatch [] (refreshSrcVals e.source),
                    network_cache_count := (refreshSrcVals e.source).length,
                    last_at_recorded := true } := by
      rw [← hok]
      simp
    subst hr
    refine ⟨rfl, rfl, upsertBatch_nodup _ [] List.nodup_nil, ?_, rfl, rfl⟩
    simpa using upsertBatch_length_le (refreshSrcVals e.source) []
  · unfold refresh_network_cache at hok
    rw [hconf] at hok
    simp only [Bool.not_true, Bool.false_eq_true, if_false, Except.ok.injEq] at hok
    rw [refreshLoop_small_source e.source (effLimit e.limit) [] [] 0 (by simpa using hsmall)]
      at hok
    rw [← hok]
    simp

/-- Witness for C4 (amended): a configured, capless, single-row refresh
inserts one row and reports one. -/
theorem C4_refresh_amended_witness :
    ({ roConfigured := true, source := [some "7"], limit := none } : RefreshEnv).roConfigured
        = true ∧
    effLimit none = none ∧
    refresh_network_cache { roConfigured := true, source := [some "7"], limit := none }
      = .ok { rows_inserted := 1, mirror := ["7"], network_cache_count := 1,
              last_at_recorded := true } ∧
    (({ rows_inserted := 1, mirror := ["7"], network_cache_count := 1,
        last_at_recorded := true } : RefreshOut).rows_inserted
        = (refreshSrcVals [some "7"]).length ∧
      ({ rows_inserted := 1, mirror := ["7"], network_cache_count := 1,
         last_at_recorded := true } : RefreshOut).mirror
        = upsertBatch [] (refreshSrcVals [some "7"]) ∧
      (["7"] : List String).Nodup ∧ (1 : Nat) ≤ 1 ∧ (1 : Nat) = 1 ∧ True) := by
  refine ⟨rfl, rfl, rfl, ?_⟩
  have h := C4_refresh_amended.2.1 { roConfigured := true, source := [some "7"], limit := none }
    { rows_inserted := 1, mirror := ["7"], network_cache_count := 1, last_at_recorded := true }
    rfl rfl rfl
  exact ⟨h.1, h.2.1, h.2.2.1, h.2.2.2.1, h.2.2.2.2.1, trivial⟩

-- ---------------------------------------------------------------------------
-- Helper lemmas: the best-score column loop
-- ---------------------------------------------------------------------------

lemma bestLoop_cons (score : String → Nat) (a : String) (t : List String) (b : String)
    (bs : Nat) :
    bestLoop score (a :: t) (some (b, bs)) =
      if score a > bs then bestLoop score t (some (a, score a))
      else bestLoop score t (some (b, bs)) := rfl

lemma bestLoop_spec (score : String → Nat) :
    ∀ (t : List String) (b : String),
      ∃ w, bestLoop score t (some (b, score b)) = some (w, score w) ∧
        w ∈ b :: t ∧ score b ≤ score w ∧
        (∀ h ∈ t, score h ≤ score w) ∧
        (∀ h ∈ (b :: t).takeWhile (fun x => !(x == w)), score h < score w) := by
  intro t
  induction t with
  | nil =>
    intro b
    refine ⟨b, rfl, List.mem_cons_self _ _, le_refl _, by simp, ?_⟩
    intro h hh
    simp only [List.takeWhile_cons] at hh
    rw [if_neg (by simp)] at hh
    simp at hh
  | cons a t' ih =>
    intro b
    by_cases hgt : score a > score b
    · obtain ⟨w, hw, hmem, hba, hall, hpre⟩ := ih a
      refine ⟨w, by rw [bestLoop_cons, if_pos hgt]; exact hw,
        List.mem_cons_of_mem b hmem, le_trans (le_of_lt hgt) hba, ?_, ?_⟩
      · intro h hh
        rcases List.mem_cons.mp hh with rfl | hh2
        · exact hba
        · exact hall h hh2
      · intro h hh
        simp only [List.takeWhile_cons] at hh
        by_cases hbw : (!(b == w)) = true
        · rw [if_pos hbw] at hh
          rcases List.mem_cons.mp hh with rfl | hh2
          · exact lt_of_lt_of_le hgt hba
          · apply hpre h
            simp only [List.takeWhile_cons]
            exact hh2
        · rw [if_neg hbw] at hh
          simp at hh
    · obtain ⟨w, hw, hmem, hba, hall, hpre⟩ := ih b
      have hab : score a ≤ score b := Nat.le_of_not_lt hgt
      refine ⟨w, by rw [bestLoop_cons, if_neg hgt]; exact hw, ?_, hba, ?_, ?_⟩
      · rcases List.mem_cons.mp hmem with rfl | hh2
        · exact List.mem_cons_self _ _
        · exact List.mem_cons_of_mem _ (List.mem_cons_of_mem _ hh2)
      · intro h hh
        rcases List.mem_cons.mp hh with rfl | hh2
        · exact le_trans hab hba
        · exact hall h hh2
      · intro h hh
        simp only [List.takeWhile_cons] at hh
        by_cases hbw : (!(b == w)) = true
        · rw [if_pos hbw] at hh
          have hblt : score b < score w := by
            apply hpre b
            simp only [List.takeWhile_cons]
            rw [if_pos hbw]
            exact List.mem_cons_self _ _
          rcases List.mem_cons.mp hh with rfl | hh2
          · exact hblt
          · by_cases haw : (!(a == w)) = true
            · rw [if_pos haw] at hh2
              rcases List.mem_cons.mp hh2 with rfl | hh3
              · exact lt_of_le_of_lt hab hblt
              · apply hpre h
                simp only [List.takeWhile_cons]
                rw [if_pos hbw]
                exact List.mem_cons_of_mem _ hh3
            · rw [if_neg haw] at hh2
              simp at hh2
        · rw [if_neg hbw] at hh
          simp at hh

lemma mem_zip_map (f : String → String) :
    ∀ (l : List String) (p : String × String), p ∈ l.zip (l.map f) → p.2 = f p.1 := by
  intro l
  induction l with
  | nil => intro p hp; simp at hp
  | cons a t ih =>
    intro p hp
    simp only [List.map_cons, List.zip_cons_cons] at hp
    rcases List.mem_cons.mp hp with rfl | hp2
    · rfl
    · exact ih p hp2

-- ---------------------------------------------------------------------------
-- Claim C6 — identifier-column selection (corrected)
-- ---------------------------------------------------------------------------

/-- C6 counterexample: with headers `"a"` and `""` (an unnamed CSV column),
the empty-named column is the unique highest scorer (its sampled value is
ten digits), yet `return best or headers[0]` treats the empty-string name
as falsy and returns `"a"` — the highest-scoring column does not win. -/
theorem C6_empty_header_cex :
    scoreCol [[("a", "x"), ("", "1234567890")]] "" = 1 ∧
    scoreCol [[("a", "x"), ("", "1234567890")]] "a" = 0 ∧
    _pick_npi_column [[("a", "x"), ("", "1234567890")]] = some "a" ∧
    _pick_npi_column [[("a", "x"), ("", "1234567890")]] ≠ some "" := by
  refine ⟨by decide, by decide, by decide, by decide⟩

/-- C6 as amended: selection on an empty record list fails; a header whose
lowercased, trimmed form equals a candidate name wins immediately;
otherwise the column with the highest 10-digit sample score over the first
200 records wins, ties keeping the first column scanned — except that a
winning column whose header is the empty string is replaced by the first
column (Python falsiness of `""` in `best or headers[0]`). -/
theorem C6_pick_column_amended :
    (_pick_npi_column [] = none) ∧
    (∀ (r : Rec) (rs : List Rec) (c : String) (p : String × String),
      candidateNames.find?
          (fun c' => ((r.map (fun kv => kv.1)).map (fun h => pyStrip (pyLower h))).contains c')
        = some c →
      ((r.map (fun kv => kv.1)).zip
          ((r.map (fun kv => kv.1)).map (fun h => pyStrip (pyLower h)))).find?
          (fun q => q.2 == c)
        = some p →
      _pick_npi_column (r :: rs) = some p.1 ∧ p.1 ∈ r.map (fun kv => kv.1) ∧
        pyStrip (pyLower p.1) = c ∧ c ∈ candidateNames) ∧
    (∀ (r : Rec) (rs : List Rec) (h₀ : String) (hs : List String) (w : String) (sw : Nat),
      r.map (fun kv => kv.1) = h₀ :: hs →
      candidateNames.find?
          (fun c' => ((h₀ :: hs).map (fun h => pyStrip (pyLower h))).contains c') = none →
      bestLoop (scoreCol (r :: rs)) (h₀ :: hs) none = some (w, sw) →
      (w ∈ h₀ :: hs ∧ sw = scoreCol (r :: rs) w ∧
        (∀ h ∈ h₀ :: hs, scoreCol (r :: rs) h ≤ scoreCol (r :: rs) w) ∧
        (∀ h ∈ (h₀ :: hs).takeWhile (fun x => !(x == w)),
          scoreCol (r :: rs) h < scoreCol (r :: rs) w) ∧
        _pick_npi_column (r :: rs) = some (if w = "" then h₀ else w))) := by
  refine ⟨rfl, ?_, ?_⟩
  · intro r rs c p hfind hpair
    obtain ⟨p1, p2⟩ := p
    have hp2 : p2 = c := by
      have hprop := List.find?_some hpair
      simpa using hprop
    have hpmem := List.mem_of_find?_eq_some hpair
    have hp1 : p1 ∈ r.map (fun kv => kv.1) := (List.of_mem_zip hpmem).1
    have hcmem : c ∈ candidateNames := List.mem_of_find?_eq_some hfind
    have hnorm : pyStrip (pyLower p1) = c := by
      have := mem_zip_map (fun h => pyStrip (pyLower h)) (r.map (fun kv => kv.1)) (p1, p2) hpmem
      simp only at this
      rw [← this, hp2]
    refine ⟨?_, hp1, hnorm, hcmem⟩
    unfold _pick_npi_column
    simp only [hfind, hpair, Option.map_some']
  · intro r rs h₀ hs w sw hheaders hnone hbest
    obtain ⟨w', hw', hmem, hb0, hall, hpre⟩ := bestLoop_spec (scoreCol (r :: rs)) hs h₀
    have hbest' : bestLoop (scoreCol (r :: rs)) (h₀ :: hs) none
        = bestLoop (scoreCol (r :: rs)) hs (some (h₀, scoreCol (r :: rs) h₀)) := rfl
    rw [hbest', hw'] at hbest
    simp only [Option.some.injEq, Prod.mk.injEq] at hbest
    obtain ⟨hww, hsw⟩ := hbest
    subst hww
    refine ⟨hmem, hsw.symm, ?_, hpre, ?_⟩
    · intro h hh
      rcases List.mem_cons.mp hh with rfl | hh2
      · exact hb0
      · exact hall h hh2
    · unfold _pick_npi_column
      simp only [hheaders, hnone, hbest', hw']
      by_cases hw0 : w' = ""
      · rw [if_pos hw0, if_pos hw0]
        rfl
      · rw [if_neg hw0, if_neg hw0]

/-- Witness for C6 (amended): headers `["Name", "ProviderId"]` have no
candidate match; `ProviderId` scores 1 against 0 and is selected. -/
theorem C6_pick_column_amended_witness :
    ([[("Name", "bob"), ("ProviderId", "1234567890")]] : List Rec).head!.map (fun kv => kv.1)
        = ["Name", "ProviderId"] ∧
    candidateNames.find?
        (fun c' => ((["Name", "ProviderId"] : List String).map
          (fun h => pyStrip (pyLower h))).contains c') = none ∧
    bestLoop (scoreCol [[("Name", "bob"), ("ProviderId", "1234567890")]])
        ["Name", "ProviderId"] none = some ("ProviderId", 1) ∧
    ("ProviderId" ∈ (["Name", "ProviderId"] : List String) ∧
      (1 : Nat) = scoreCol [[("Name", "bob"), ("ProviderId", "1234567890")]] "ProviderId" ∧
      (∀ h ∈ (["Name", "ProviderId"] : List String),
        scoreCol [[("Name", "bob"), ("ProviderId", "1234567890")]] h
          ≤ scoreCol [[("Name", "bob"), ("ProviderId", "1234567890")]] "ProviderId") ∧
      (∀ h ∈ (["Name", "ProviderId"] : List String).takeWhile (fun x => !(x == "ProviderId")),
        scoreCol [[("Name", "bob"), ("ProviderId", "1234567890")]] h
          < scoreCol [[("Name", "bob"), ("ProviderId", "1234567890")]] "ProviderId") ∧
      _pick_npi_column [[("Name", "bob"), ("ProviderId", "1234567890")]]
        = some (if "ProviderId" = "" then "Name" else "ProviderId")) :=
  ⟨by decide, by decide, by decide,
    C6_pick_column_amended.2.2 [("Name", "bob"), ("ProviderId", "1234567890")] [] "Name"
      ["ProviderId"] "ProviderId" 1 (by decide) (by decide) (by decide)⟩

-- ---------------------------------------------------------------------------
-- Helper lemmas: sorted lists and concrete percentile values
-- ---------------------------------------------------------------------------

lemma sorted_headD_le (l : List ℚ) (h : l.Sorted (· ≤ ·)) (v : ℚ) (hv : v ∈ l) :
    l.headD 0 ≤ v := by
  cases l with
  | nil => simp at hv
  | cons a t =>
    rcases List.sorted_cons.mp h with ⟨ha, _⟩
    rcases List.mem_cons.mp hv with rfl | hv2
    · exact le_refl _
    · exact ha v hv2

lemma sorted_le_getLastD :
    ∀ (l : List ℚ), l.Sorted (· ≤ ·) → ∀ v ∈ l, ∀ d : ℚ, v ≤ l.getLastD d := by
  intro l
  induction l with
  | nil => intro _ v hv; simp at hv
  | cons a t ih =>
    intro h v hv d
    rcases List.sorted_cons.mp h with ⟨ha, ht⟩
    rw [List.getLastD_cons]
    rcases List.mem_cons.mp hv with rfl | hv2
    · cases t with
      | nil => exact le_refl _
      | cons b t' =>
        exact le_trans (ha b (List.mem_cons_self _ _)) (ih ht b (List.mem_cons_self _ _) v)
    · exact ih ht v hv2 a

lemma getLastD_mem (l : List ℚ) (hne : l ≠ []) (d : ℚ) : l.getLastD d ∈ l := by
  rw [List.getLastD_eq_getLast?, List.getLast?_eq_getLast l hne, Option.getD_some]
  exact List.getLast_mem hne

lemma pctIndex_10_90 : pctIndex 10 90 = 8 := by
  unfold pctIndex
  have hq : ((90 : ℚ) / 100) * ((((10 : ℕ) : ℤ) : ℚ) - 1) = 81 / 10 := by
    push_cast
    norm_num
  rw [hq]
  have hr : pyRound (81 / 10 : ℚ) = 8 := by
    unfold pyRound
    have hf : ⌊(81 / 10 : ℚ)⌋ = 8 := by
      rw [Int.floor_eq_iff]
      norm_num
    rw [hf, if_pos (by norm_num)]
  rw [hr]
  decide

lemma pctIndex_10_50 : pctIndex 10 50 = 4 := by
  unfold pctIndex
  have hq : ((50 : ℚ) / 100) * ((((10 : ℕ) : ℤ) : ℚ) - 1) = 9 / 2 := by
    push_cast
    norm_num
  rw [hq]
  have hr : pyRound (9 / 2 : ℚ) = 4 := by
    unfold pyRound
    have hf : ⌊(9 / 2 : ℚ)⌋ = 4 := by
      rw [Int.floor_eq_iff]
      norm_num
    rw [hf, if_neg (by norm_num), if_neg (by norm_num), if_pos (by norm_num)]
  rw [hr]
  decide

lemma vals10 : numericValuesFor parseNatQ "Score" extras10
    = [1, 2, 3, 4, 5, 6, 7, 8, 9, 10] := by decide

lemma sort10 : List.insertionSort (· ≤ ·) [(1 : ℚ), 2, 3, 4, 5, 6, 7, 8, 9, 10]
    = [1, 2, 3, 4, 5, 6, 7, 8, 9, 10] := by decide

lemma summarize10 : summarizeKey parseNatQ "Score" extras10
    = some { count := 10, min := 1, p50 := 5, p90 := 9, max := 10 } := by
  have h50 : pct [(1 : ℚ), 2, 3, 4, 5, 6, 7, 8, 9, 10] 50 = 5 := by
    unfold pct
    rw [show ([(1 : ℚ), 2, 3, 4, 5, 6, 7, 8, 9, 10]).length = 10 from rfl, pctIndex_10_50]
    decide
  have h90 : pct [(1 : ℚ), 2, 3, 4, 5, 6, 7, 8, 9, 10] 90 = 9 := by
    unfold pct
    rw [show ([(1 : ℚ), 2, 3, 4, 5, 6, 7, 8, 9, 10]).length = 10 from rfl, pctIndex_10_90]
    decide
  simp only [summarizeKey, vals10, sort10, h50, h90]
  rfl

-- ---------------------------------------------------------------------------
-- Claim C9 — numeric percentile summaries
-- ---------------------------------------------------------------------------

/-- C9: for every numeric key with at least one parsed value, the summary
reports the value count, the least and greatest parsed values, and the 50th
and 90th percentiles looked up by nearest rank in the sorted value list at
index `round(p/100 * (n-1))` clamped to `[0, n-1]` — and on values 1..10
the p90 index is `round(0.9 * 9) = 8`, giving 9. -/
theorem C9_percentile_summary :
    (∀ (parse : String → Option ℚ) (nk : String) (extras : List (Option Rec)) (s : NumSummary),
      summarizeKey parse nk extras = some s →
      (numericValuesFor parse nk extras ≠ [] ∧
        s.count = (numericValuesFor parse nk extras).length ∧
        s.min ∈ numericValuesFor parse nk extras ∧
        (∀ v ∈ numericValuesFor parse nk extras, s.min ≤ v) ∧
        s.max ∈ numericValuesFor parse nk extras ∧
        (∀ v ∈ numericValuesFor parse nk extras, v ≤ s.max) ∧
        s.p50 = (List.insertionSort (· ≤ ·) (numericValuesFor parse nk extras)).getD
          (pctIndex (numericValuesFor parse nk extras).length 50) 0 ∧
        s.p90 = (List.insertionSort (· ≤ ·) (numericValuesFor parse nk extras)).getD
          (pctIndex (numericValuesFor parse nk extras).length 90) 0)) ∧
    summarizeKey parseNatQ "Score" extras10
      = some { count := 10, min := 1, p50 := 5, p90 := 9, max := 10 } ∧
    pctIndex 10 90 = 8 := by
  refine ⟨?_, summarize10, pctIndex_10_90⟩
  intro parse nk extras s hsome
  unfold summarizeKey at hsome
  by_cases hemp : (numericValuesFor parse nk extras).isEmpty = true
  · rw [if_pos hemp] at hsome
    simp at hsome
  · rw [if_neg hemp] at hsome
    simp only [Option.some.injEq] at hsome
    have hne : numericValuesFor parse nk extras ≠ [] := by
      intro hnil
      exact hemp (by rw [hnil]; rfl)
    have hperm := List.perm_insertionSort (fun a b : ℚ => a ≤ b)
      (numericValuesFor parse nk extras)
    have hsorted := List.sorted_insertionSort (fun a b : ℚ => a ≤ b)
      (numericValuesFor parse nk extras)
    have hslen : (List.insertionSort (· ≤ ·) (numericValuesFor parse nk extras)).length
        = (numericValuesFor parse nk extras).length := hperm.length_eq
    have hsne : List.insertionSort (· ≤ ·) (numericValuesFor parse nk extras) ≠ [] := by
      intro hnil
      apply hne
      rw [← List.length_eq_zero, ← hslen, hnil]
      rfl
    rw [← hsome]
    refine ⟨hne, rfl, ?_, ?_, ?_, ?_, ?_, ?_⟩
    · show (List.insertionSort (· ≤ ·) (numericValuesFor parse nk extras)).headD 0
        ∈ numericValuesFor parse nk extras
      rw [← hperm.mem_iff]
      obtain ⟨a, t, hat⟩ := List.exists_cons_of_ne_nil hsne
      rw [hat]
      exact List.mem_cons_self _ _
    · intro v hv
      exact sorted_headD_le _ hsorted v (hperm.mem_iff.mpr hv)
    · show (List.insertionSort (· ≤ ·) (numericValuesFor parse nk extras)).getLastD 0
        ∈ numericValuesFor parse nk extras
      rw [← hperm.mem_iff]
      exact getLastD_mem _ hsne 0
    · intro v hv
      exact sorted_le_getLastD _ hsorted v (hperm.mem_iff.mpr hv) 0
    · show pct (List.insertionSort (· ≤ ·) (numericValuesFor parse nk extras)) 50 = _
      unfold pct
      rw [hslen]
    · show pct (List.insertionSort (· ≤ ·) (numericValuesFor parse nk extras)) 90 = _
      unfold pct
      rw [hslen]

/-- Witness for C9: values 1..10 — count 10, min 1, max 10, p50 5, p90 9. -/
theorem C9_percentile_summary_witness :
    summarizeKey parseNatQ "Score" extras10
      = some { count := 10, min := 1, p50 := 5, p90 := 9, max := 10 } ∧
    (numericValuesFor parseNatQ "Score" extras10 ≠ [] ∧
      ({ count := 10, min := 1, p50 := 5, p90 := 9, max := 10 } : NumSummary).count
        = (numericValuesFor parseNatQ "Score" extras10).length ∧
      ({ count := 10, min := 1, p50 := 5, p90 := 9, max := 10 } : NumSummary).min
        ∈ numericValuesFor parseNatQ "Score" extras10 ∧
      (∀ v ∈ numericValuesFor parseNatQ "Score" extras10,
        ({ count := 10, min := 1, p50 := 5, p90 := 9, max := 10 } : NumSummary).min ≤ v) ∧
      ({ count := 10, min := 1, p50 := 5, p90 := 9, max := 10 } : NumSummary).max
        ∈ numericValuesFor parseNatQ "Score" extras10 ∧
      (∀ v ∈ numericValuesFor parseNatQ "Score" extras10,
        v ≤ ({ count := 10, min := 1, p50 := 5, p90 := 9, max := 10 } : NumSummary).max) ∧
      ({ count := 10, min := 1, p50 := 5, p90 := 9, max := 10 } : NumSummary).p50
        = (List.insertionSort (· ≤ ·) (numericValuesFor parseNatQ "Score" extras10)).getD
          (pctIndex (numericValuesFor parseNatQ "Score" extras10).length 50) 0 ∧
      ({ count := 10, min := 1, p50 := 5, p90 := 9, max := 10 } : NumSummary).p90
        = (List.insertionSort (· ≤ ·) (numericValuesFor parseNatQ "Score" extras10)).getD
          (pctIndex (numericValuesFor parseNatQ "Score" extras10).length 90) 0) :=
  ⟨summarize10,
    C9_percentile_summary.1 parseNatQ "Score" extras10
      { count := 10, min := 1, p50 := 5, p90 := 9, max := 10 } summarize10⟩
